import Mathlib

/-!
Shallow embedding of the ICES_2022 conversion pipeline
(`src/read.py`, `src/read_ICES_20220913.py`, `src/main.py`).

The pipeline reads a delimited text file in chunks, groups each chunk's rows
by a composite cast key (pandas `groupby`, which emits groups in ascending
key order with each group's rows kept in original order), appends one profile
record per group and one observation record per row, and finally assembles an
xarray dataset with a `profile` dimension and an `obs` dimension.

Modelling conventions:
* numeric columns (`Depth [m]`, coordinates, …) are modelled as `Int`;
* the date columns (`Year` … `Minute`) are modelled as `String`, since
  `get_date` applies Python's `int(...)` to them, which can fail;
* Python exceptions become `Except PipelineError`;
* the pandas reader (`pd.read_csv(..., chunksize=10**6)`) is external
  library code, modelled from the spec as a function producing either the
  list of chunks or a read error.
-/

namespace ICES

/-- The `file_type` tags accepted by the pipeline (`'bot'`, `'ctd'`, `'xbt'`). -/
inductive FileType where
  | bot | ctd | xbt
deriving DecidableEq, Repr

/-- One source row: the group-key columns plus the measurement columns.
`year`..`minute` are kept as strings (source: `int(year)` etc. in `get_date`
may fail on non-numeric text). -/
structure Row where
  cruise : String
  station : String
  year : String
  month : String
  day : String
  hour : String
  minute : String
  lon : Int
  lat : Int
  botDepth : Int
  depth : Int
  press : Int
  temp : Int
  psal : Int
deriving DecidableEq, Repr

/-- The composite grouping key (source: `groupby_attrs` in
`initialize_variables`): `Cruise, Station, Year, Month, Day, Hour, Minute,
Longitude, Latitude` and, for non-XBT files only, `Bot. Depth [m]`.
Field order matches the `groupby` column order, so the derived `Ord` is the
lexicographic order pandas sorts the groups by. -/
structure CastKey where
  cruise : String
  station : String
  year : String
  month : String
  day : String
  hour : String
  minute : String
  lon : Int
  lat : Int
  botDepth : Option Int
deriving DecidableEq, Ord, Repr

/-- Key extraction for one row: the `Bot. Depth [m]` column is part of the
key exactly when `file_type != 'xbt'`. -/
def rowKey (ft : FileType) (r : Row) : CastKey :=
  { cruise := r.cruise, station := r.station, year := r.year, month := r.month,
    day := r.day, hour := r.hour, minute := r.minute, lon := r.lon, lat := r.lat,
    botDepth := if ft = FileType.xbt then none else some r.botDepth }

/-- Boolean total order on cast keys used for sorting groups (pandas
`groupby` emits groups in ascending key order). -/
def keyLE (a b : CastKey) : Bool := (compare a b).isLE

/-- The distinct keys of a chunk in pandas `groupby` emission order:
ascending key order (an insertion sort by `keyLE` — the sorted sequence of
the distinct keys). -/
def groupKeys (ft : FileType) (chunk : List Row) : List CastKey :=
  ((chunk.map (rowKey ft)).dedup).insertionSort (fun a b => keyLE a b)

/-- The rows of a chunk belonging to key `k`, in original row order
(pandas `groupby` preserves within-group row order). -/
def groupRows (ft : FileType) (chunk : List Row) (k : CastKey) : List Row :=
  chunk.filter (fun r => rowKey ft r = k)

/-- `chunk.groupby(groupby_attrs)`: the list of (key, rows) groups in the
order pandas iterates them — ascending key order, rows in original order. -/
def groupBy (ft : FileType) (chunk : List Row) : List (CastKey × List Row) :=
  (groupKeys ft chunk).map (fun k => (k, groupRows ft chunk k))

/-- Errors of the run, following the spec's error taxonomy (§7). -/
inductive PipelineError where
  | readError | dateParseError | dataError | writeError
deriving DecidableEq, Repr

/-- Parses a non-empty run of decimal digits into a number; `none` when a
non-digit occurs or the run is empty. -/
def parseNatChars : List Char → Option Nat → Option Nat
  | [], acc => acc
  | c :: cs, acc =>
    if '0' ≤ c ∧ c ≤ '9' then
      parseNatChars cs (some ((acc.getD 0) * 10 + (c.toNat - 48)))
    else none

/-- Python `int(s)` on decimal text: an optional sign followed by digits;
anything else raises `ValueError`. -/
def pyInt (s : String) : Option Int :=
  match s.data with
  | '-' :: cs => (parseNatChars cs none).map (fun n => -(n : Int))
  | '+' :: cs => (parseNatChars cs none).map (fun n => (n : Int))
  | cs => (parseNatChars cs none).map (fun n => (n : Int))

/-- Python `int(s)` on a date column: parse or raise (→ `dateParseError`). -/
def parseIntE (s : String) : Except PipelineError Int :=
  match pyInt s with
  | some v => Except.ok v
  | none => Except.error PipelineError.dateParseError

/-- Gregorian leap-year rule (as used by Python `datetime`). -/
def isLeapYear (y : Int) : Bool :=
  (y % 4 == 0 && y % 100 != 0) || (y % 400 == 0)

/-- Days in a month, Gregorian calendar. -/
def daysInMonth (y m : Int) : Int :=
  if m = 2 then (if isLeapYear y then 29 else 28)
  else if m = 4 ∨ m = 6 ∨ m = 9 ∨ m = 11 then 30
  else 31

/-- The range validation performed by the `datetime(...)` constructor:
out-of-range components raise (→ `dateParseError`, per the spec which folds
non-numeric and out-of-range into one error kind). -/
def validDate (y m d h mi : Int) : Bool :=
  1 ≤ y && y ≤ 9999 && 1 ≤ m && m ≤ 12 && 1 ≤ d && d ≤ daysInMonth y m &&
    0 ≤ h && h ≤ 23 && 0 ≤ mi && mi ≤ 59

/-- Days since the Unix epoch of a civil date (standard era-based civil
calendar computation; floor division is fine since divisors are positive). -/
def daysFromCivil (y m d : Int) : Int :=
  let yy := if m ≤ 2 then y - 1 else y
  let era := Int.ediv yy 400
  let yoe := yy - era * 400
  let mp := Int.emod (m + 9) 12
  let doy := Int.ediv (153 * mp + 2) 5 + d - 1
  let doe := yoe * 365 + Int.ediv yoe 4 - Int.ediv yoe 100 + doy
  era * 146097 + doe - 719468

/-- `datetime(...).timestamp()` modelled as seconds since the epoch of the
civil datetime (the source's naive-datetime timestamp, taken in UTC). -/
def unixSeconds (y m d h mi : Int) : Int :=
  daysFromCivil y m d * 86400 + h * 3600 + mi * 60

/-- Zero-pad to two digits (strftime `%m`, `%d`, `%H`, `%M`, `%S`). -/
def pad2 (n : Int) : String :=
  if 0 ≤ n ∧ n < 10 then "0" ++ toString n else toString n

/-- Zero-pad to four digits (strftime `%Y`). -/
def pad4 (n : Int) : String :=
  let s := toString n
  if s.length < 4 then String.pushn "" '0' (4 - s.length) ++ s else s

/-- strftime `"%Y/%m/%d %H:%M:%S"` of a datetime with zero seconds. -/
def formatDate (y m d h mi : Int) : String :=
  pad4 y ++ "/" ++ pad2 m ++ "/" ++ pad2 d ++ " " ++ pad2 h ++ ":" ++ pad2 mi ++ ":00"

/-- `get_date(year, month, day, hour, minute)` (source: `read.py` lines
25–30, identical in the class variant): converts the five components with
`int(...)`, builds a `datetime` (validating ranges), and returns the
formatted date string and the Unix timestamp.  Any failure is a
`dateParseError`. -/
def get_date (year month day hour minute : String) :
    Except PipelineError (String × Int) :=
  match parseIntE year with
  | Except.error e => Except.error e
  | Except.ok y =>
    match parseIntE month with
    | Except.error e => Except.error e
    | Except.ok m =>
      match parseIntE day with
      | Except.error e => Except.error e
      | Except.ok d =>
        match parseIntE hour with
        | Except.error e => Except.error e
        | Except.ok h =>
          match parseIntE minute with
          | Except.error e => Except.error e
          | Except.ok mi =>
            if validDate y m d h mi then
              Except.ok (formatDate y m d h mi, unixSeconds y m d h mi)
            else
              Except.error PipelineError.dateParseError

/-- Python builtin `min(...)` over a list of numbers: raises on an empty
sequence (modelled as `dataError`, the spec's name for an undefined
min/max). -/
def pymin (l : List Int) : Except PipelineError Int :=
  match l.min? with
  | some v => Except.ok v
  | none => Except.error PipelineError.dataError

/-- Python builtin `max(...)`: raises on an empty sequence. -/
def pymax (l : List Int) : Except PipelineError Int :=
  match l.max? with
  | some v => Except.ok v
  | none => Except.error PipelineError.dataError

/-- The accumulator `data_lists`: one growable list per attribute.  For XBT
runs the source dict simply has no `bottom_depth`/`press`/`psal` keys; here
those lists exist but are never appended to. -/
structure DataLists where
  orig_cruise_id : List String := []
  station_no : List String := []
  lat : List Int := []
  lon : List Int := []
  datestr : List String := []
  timestamp : List Int := []
  bottom_depth : List Int := []
  shallowest_depth : List Int := []
  deepest_depth : List Int := []
  parent_index : List Nat := []
  depth : List Int := []
  press : List Int := []
  temp : List Int := []
  psal : List Int := []
deriving DecidableEq, Repr

/-- The empty accumulator produced by `initialize_variables`. -/
def initDataLists : DataLists := {}

/-- The fallible per-group computations of the loop body, in source order:
`get_date` (line 47), then the shallowest-depth rule (lines 57–60: minimum
of the non-zero depths when the group has more than one depth reading, else
minimum of the depth series), then the maximum depth (line 61). -/
structure ProfileRec where
  datestr : String
  timestamp : Int
  shallow : Int
  deep : Int
deriving DecidableEq, Repr

/-- Runs the three fallible steps of one group-loop iteration, in the order
the source performs them: `get_date`, the shallowest-depth minimum, the
deepest-depth maximum; the first exception aborts. -/
def groupOutcome (k : CastKey) (rows : List Row) :
    Except PipelineError ProfileRec :=
  match get_date k.year k.month k.day k.hour k.minute with
  | Except.error e => Except.error e
  | Except.ok (ds, ts) =>
    match
      (if (rows.map Row.depth).length > 1 then
        pymin ((rows.map Row.depth).filter (fun d => d ≠ 0))
      else pymin (rows.map Row.depth)) with
    | Except.error e => Except.error e
    | Except.ok sh =>
      match pymax (rows.map Row.depth) with
      | Except.error e => Except.error e
      | Except.ok dp =>
        Except.ok { datestr := ds, timestamp := ts, shallow := sh, deep := dp }

/-- All the appends performed by one iteration of the group loop
(source lines 38–62).  The source interleaves appends with the fallible
steps, but an exception aborts the whole run, so the partially-updated dict
is unobservable; the embedding performs the appends after `groupOutcome`. -/
def appendGroup (ft : FileType) (dl : DataLists) (i : Nat) (k : CastKey)
    (rows : List Row) (pr : ProfileRec) : DataLists :=
  { dl with
    bottom_depth :=
      dl.bottom_depth ++ (if ft ≠ FileType.xbt then k.botDepth.toList else []),
    orig_cruise_id := dl.orig_cruise_id ++ [k.cruise],
    station_no := dl.station_no ++ [k.station],
    lat := dl.lat ++ [k.lat],
    lon := dl.lon ++ [k.lon],
    datestr := dl.datestr ++ [pr.datestr],
    timestamp := dl.timestamp ++ [pr.timestamp],
    depth := dl.depth ++ rows.map Row.depth,
    temp := dl.temp ++ rows.map Row.temp,
    press := dl.press ++ (if ft ≠ FileType.xbt then rows.map Row.press else []),
    psal := dl.psal ++ (if ft ≠ FileType.xbt then rows.map Row.psal else []),
    shallowest_depth := dl.shallowest_depth ++ [pr.shallow],
    deepest_depth := dl.deepest_depth ++ [pr.deep],
    parent_index := dl.parent_index ++ List.replicate (rows.map Row.depth).length i }

/-- One iteration of `for group, data in grouped_df` (source lines 37–62). -/
def processGroup (ft : FileType) (k : CastKey) (rows : List Row) (i : Nat)
    (dl : DataLists) : Except PipelineError DataLists :=
  (groupOutcome k rows).map (fun pr => appendGroup ft dl i k rows pr)

/-- The group loop over an explicit list of (key, rows) groups, threading
the accumulator and the running cast counter `i` (incremented after each
group, source line 63); an exception aborts the loop. -/
def runGroups (ft : FileType) :
    List (CastKey × List Row) → DataLists × Nat →
      Except PipelineError (DataLists × Nat)
  | [], st => Except.ok st
  | g :: gs, st =>
    match processGroup ft g.1 g.2 st.2 st.1 with
    | Except.error e => Except.error e
    | Except.ok dl => runGroups ft gs (dl, st.2 + 1)

/-- The chunk loop `for chunk in reader` (source lines 35–63): group each
chunk and run the group loop, threading the accumulator state. -/
def processChunks (ft : FileType) :
    List (List Row) → DataLists × Nat → Except PipelineError (DataLists × Nat)
  | [], st => Except.ok st
  | c :: cs, st =>
    match runGroups ft (groupBy ft c) st with
    | Except.error e => Except.error e
    | Except.ok st' => processChunks ft cs st'

/-- `process_chunks(reader, data_lists, file_type, groupby_attrs)` (source
lines 33–63, textually identical in `read_ICES_20220913.py` lines 122–161):
the counter `i` is initialised to 0 once, before the chunk loop, and is
never reset across chunk boundaries. -/
def process_chunks (ft : FileType) (chunks : List (List Row)) :
    Except PipelineError (DataLists × Nat) :=
  processChunks ft chunks (initDataLists, 0)

/-- All groups of the whole input, in processing order: chunks in input
order, and within each chunk the pandas `groupby` order. -/
def castGroups (ft : FileType) (chunks : List (List Row)) :
    List (CastKey × List Row) :=
  chunks.flatMap (groupBy ft)

/-- The output dataset: the `profile`-dimension arrays, the `obs`-dimension
arrays, and the two global attributes.  `bottom_depth`, `press`, `psal` are
`none` for XBT runs, whose schema excludes them. -/
structure Dataset where
  timestamp : List Int
  lat : List Int
  lon : List Int
  orig_cruise_id : List String
  station_no : List String
  datestr : List String
  bottom_depth : Option (List Int)
  shallowest_depth : List Int
  deepest_depth : List Int
  depth : List Int
  temp : List Int
  press : Option (List Int)
  psal : Option (List Int)
  parent_index : List Nat
  dataset_name : String
  creation_date : String
deriving DecidableEq, Repr

/-- Lengths of every array placed on the `profile` dimension (the
`string_attrs` minus `parent_index`, plus the three coordinates). -/
def profileDimLens (ft : FileType) (dl : DataLists) : List Nat :=
  [dl.timestamp.length, dl.lat.length, dl.lon.length, dl.orig_cruise_id.length,
   dl.station_no.length, dl.datestr.length, dl.shallowest_depth.length,
   dl.deepest_depth.length] ++
  (if ft ≠ FileType.xbt then [dl.bottom_depth.length] else [])

/-- Lengths of every array placed on the `obs` dimension
(the `measurements_attrs` plus `parent_index`). -/
def obsDimLens (ft : FileType) (dl : DataLists) : List Nat :=
  [dl.depth.length, dl.temp.length, dl.parent_index.length] ++
  (if ft ≠ FileType.xbt then [dl.press.length, dl.psal.length] else [])

/-- All entries of a list are equal (xarray accepts the arrays of a shared
dimension exactly when their lengths agree). -/
def allEqual (ls : List Nat) : Bool :=
  ls.all (fun x => x == ls.headD 0)

/-- `path.split("/")` on the underlying character list. -/
def splitSlash : List Char → List (List Char)
  | [] => [[]]
  | c :: cs =>
    let rest := splitSlash cs
    if c = '/' then [] :: rest
    else
      match rest with
      | [] => [[c]]
      | p :: ps => (c :: p) :: ps

/-- The `/`-separated components of a path. -/
def pathParts (s : String) : List String :=
  (splitSlash s.data).map (fun cs => String.mk cs)

/-- `str.endswith(suffix)`, computed on the character lists. -/
def endsWith (s suffix : String) : Bool :=
  suffix.data.isSuffixOf s.data

/-- `read.py`'s dataset-name computation (lines 67–70): `os.chdir` to the
input file's directory, `os.chdir("../")`, then the basename of the
resulting working directory — i.e. for a normalised absolute path, the name
of the directory two levels above the input file. -/
def datasetNameOf (dataPath : String) : String :=
  ((pathParts dataPath).reverse.drop 2).headD ""

/-- Core of `create_dataset` (source `read.py` lines 75–96): builds the
xarray dataset, failing with a `writeError` when two arrays sharing a
dimension have mismatched lengths.  `now` stands for
`datetime.now().strftime("%Y-%m-%d %H:%M")`. -/
def buildDataset (ft : FileType) (dl : DataLists) (name now : String) :
    Except PipelineError Dataset :=
  if allEqual (profileDimLens ft dl) && allEqual (obsDimLens ft dl) then
    Except.ok
      { timestamp := dl.timestamp, lat := dl.lat, lon := dl.lon,
        orig_cruise_id := dl.orig_cruise_id, station_no := dl.station_no,
        datestr := dl.datestr,
        bottom_depth := if ft ≠ FileType.xbt then some dl.bottom_depth else none,
        shallowest_depth := dl.shallowest_depth,
        deepest_depth := dl.deepest_depth,
        depth := dl.depth, temp := dl.temp,
        press := if ft ≠ FileType.xbt then some dl.press else none,
        psal := if ft ≠ FileType.xbt then some dl.psal else none,
        parent_index := dl.parent_index,
        dataset_name := name, creation_date := now }
  else Except.error PipelineError.writeError

/-- `create_dataset` of the functional pipeline (`read.py` lines 66–99):
the `dataset_name` attribute is derived from the input path. -/
def create_dataset (ft : FileType) (dl : DataLists) (dataPath now : String) :
    Except PipelineError Dataset :=
  buildDataset ft dl (datasetNameOf dataPath) now

/-- `ICESReader.create_dataset` (`read_ICES_20220913.py` lines 163–201):
identical except that `dataset_name` is the hardcoded string `"ICES_2022"`. -/
def ICESReader_create_dataset (ft : FileType) (dl : DataLists)
    (_dataPath now : String) : Except PipelineError Dataset :=
  buildDataset ft dl "ICES_2022" now

/-- Modelled from the spec: the ChunkedRowReader (§4.1), i.e. the external
`pd.read_csv(data_path, chunksize=10**6, ...)` call, is not code of this
repository.  It is modelled as a function from the separator (`"\t"` for
`.txt`, `","` for `.csv`) to either the chunk list or a `readError`
("fails with a ReadError if the file cannot be opened or a row cannot be
parsed into the expected column set"). -/
def Reader : Type :=
  String → Except PipelineError (List (List Row))

/-- The write step of a pipeline run: assemble the dataset (with the given
`create_dataset` variant) and report it as the produced output. -/
def writeStage (build : FileType → DataLists → String → String →
      Except PipelineError Dataset)
    (dataPath : String) (ft : FileType) (now : String) (dl : DataLists) :
    Except PipelineError (Option Dataset) :=
  match build ft dl dataPath now with
  | Except.error e => Except.error e
  | Except.ok ds => Except.ok (some ds)

/-- Aggregation then write: `process_chunks` followed by `create_dataset`
(an aggregation exception aborts before the write step executes). -/
def aggStage (build : FileType → DataLists → String → String →
      Except PipelineError Dataset)
    (dataPath : String) (ft : FileType) (now : String)
    (chunks : List (List Row)) : Except PipelineError (Option Dataset) :=
  match process_chunks ft chunks with
  | Except.error e => Except.error e
  | Except.ok (dl, _) => writeStage build dataPath ft now dl

/-- One dispatch branch of the pipeline body: read, aggregate, write. -/
def runPipeline (build : FileType → DataLists → String → String →
      Except PipelineError Dataset)
    (dataPath : String) (fs : Reader) (ft : FileType) (now : String)
    (sep : String) : Except PipelineError (Option Dataset) :=
  match fs sep with
  | Except.error e => Except.error e
  | Except.ok chunks => aggStage build dataPath ft now chunks

/-- `read_ICES(data_path, save_path, file_type)` (`read.py` lines 102–113):
dispatch on the path suffix, read, aggregate, write.  Returns `some ds`
when a dataset was written, and `none` when the path matches neither
suffix, in which case the function silently does nothing. -/
def read_ICES (dataPath : String) (fs : Reader) (ft : FileType)
    (now : String) : Except PipelineError (Option Dataset) :=
  if endsWith dataPath ".txt" then
    runPipeline create_dataset dataPath fs ft now "\t"
  else if endsWith dataPath ".csv" then
    runPipeline create_dataset dataPath fs ft now ","
  else Except.ok none

/-- `ICESReader.run` (`read_ICES_20220913.py` lines 203–222): the same
dispatch and aggregation (its `process_chunks`, `get_date`,
`initialize_variables` are textually identical to `read.py`'s, so the
embedding shares their definitions), but writing via
`ICESReader.create_dataset`. -/
def ICESReader_run (dataPath : String) (fs : Reader) (ft : FileType)
    (now : String) : Except PipelineError (Option Dataset) :=
  if endsWith dataPath ".txt" then
    runPipeline ICESReader_create_dataset dataPath fs ft now "\t"
  else if endsWith dataPath ".csv" then
    runPipeline ICESReader_create_dataset dataPath fs ft now ","
  else Except.ok none

/-- The parent-index block appended for a list of groups when the running
counter starts at `i`: one run of `replicate (group size) index` per group. -/
def pindexFrom (i : Nat) : List (CastKey × List Row) → List Nat
  | [] => []
  | g :: gs => List.replicate g.2.length i ++ pindexFrom (i + 1) gs

/-- The shallowest-depth rule of source lines 57–60 as a pure function of a
group's depth series. -/
def shallowestOf (depths : List Int) : Option Int :=
  if depths.length > 1 then (depths.filter (fun d => d ≠ 0)).min?
  else depths.min?

/-- The depth readings of the observations whose `parent_index` equals `j`:
partitioning the observation arrays by `parent_index`. -/
def obsDepthsOf (dl : DataLists) (j : Nat) : List Int :=
  ((dl.parent_index.zip dl.depth).filter (fun p => p.1 = j)).map Prod.snd

/-- A cast key one of whose five date components is not numeric text. -/
def hasNonNumericDate (k : CastKey) : Bool :=
  (pyInt k.year).isNone || (pyInt k.month).isNone || (pyInt k.day).isNone ||
    (pyInt k.hour).isNone || (pyInt k.minute).isNone

/-! ### Concrete sample inputs used by witnesses and counterexamples -/

/-- A row of the cast at station `S1`, cruise `CR`, 2000/01/02 03:04. -/
def sampleRow (d : Int) : Row :=
  { cruise := "CR", station := "S1", year := "2000", month := "1", day := "2",
    hour := "3", minute := "4", lon := 7, lat := 8, botDepth := 100,
    depth := d, press := 1, temp := 2, psal := 3 }

/-- First row of a two-cast chunk: station `B` appears first in the input. -/
def rowStationB : Row := { sampleRow 5 with station := "B" }

/-- Second row of the same chunk: station `A` appears second in the input
but sorts first. -/
def rowStationA : Row := { sampleRow 6 with station := "A" }

/-- A zero-depth row of cruise `A`. -/
def rowZeroA1 : Row := { sampleRow 0 with cruise := "A" }

/-- A second zero-depth row of cruise `A` (distinct measurement). -/
def rowZeroA2 : Row := { sampleRow 0 with cruise := "A", temp := 9 }

/-- A row of cruise `B` whose `Year` column is not numeric. -/
def rowBadYear : Row := { sampleRow 20 with cruise := "B", year := "Y2K" }

/-- Accumulator produced by the single-cast chunk with depths `[0, 10, 50]`
(the spec's §8 scenario). -/
def sampleDL : DataLists :=
  { orig_cruise_id := ["CR"], station_no := ["S1"], lat := [8], lon := [7],
    datestr := ["2000/01/02 03:04:00"], timestamp := [946782240],
    bottom_depth := [], shallowest_depth := [10], deepest_depth := [50],
    parent_index := [0, 0, 0], depth := [0, 10, 50], press := [],
    temp := [2, 2, 2], psal := [] }

/-- Accumulator produced by the `[rowStationB, rowStationA]` chunk: the
casts come out in ascending key order (`A` before `B`), not input order. -/
def sortedDL : DataLists :=
  { orig_cruise_id := ["CR", "CR"], station_no := ["A", "B"], lat := [8, 8],
    lon := [7, 7], datestr := ["2000/01/02 03:04:00", "2000/01/02 03:04:00"],
    timestamp := [946782240, 946782240], bottom_depth := [],
    shallowest_depth := [6, 5], deepest_depth := [6, 5],
    parent_index := [0, 1], depth := [6, 5], press := [],
    temp := [2, 2], psal := [] }

/-- Accumulator produced by two chunks holding one row each of the *same*
cast key: chunk-local grouping yields two profile records. -/
def splitDL : DataLists :=
  { orig_cruise_id := ["CR", "CR"], station_no := ["S1", "S1"], lat := [8, 8],
    lon := [7, 7], datestr := ["2000/01/02 03:04:00", "2000/01/02 03:04:00"],
    timestamp := [946782240, 946782240], bottom_depth := [],
    shallowest_depth := [5, 6], deepest_depth := [5, 6],
    parent_index := [0, 1], depth := [5, 6], press := [],
    temp := [2, 2], psal := [] }

/-- A reader that yields a single one-row bottle chunk for any separator. -/
def oneRowReader : Reader := fun _ => Except.ok [[sampleRow 12]]

/-- A reader whose source cannot be opened. -/
def failingReader : Reader := fun _ => Except.error PipelineError.readError

/-- The dataset the functional pipeline (`read.py`) writes for the one-row
bottle input read from `/mnt/data/origdir/sub/file.csv` at build time `t`:
its `dataset_name` is the grandparent directory name `origdir`. -/
def dsFunctional : Dataset :=
  { timestamp := [946782240], lat := [8], lon := [7], orig_cruise_id := ["CR"],
    station_no := ["S1"], datestr := ["2000/01/02 03:04:00"],
    bottom_depth := some [100], shallowest_depth := [12], deepest_depth := [12],
    depth := [12], temp := [2], press := some [1], psal := some [3],
    parent_index := [0], dataset_name := "origdir", creation_date := "t" }

/-- The dataset the class pipeline (`read_ICES_20220913.py`) writes for the
same input: identical except for the hardcoded `dataset_name`. -/
def dsClass : Dataset :=
  { dsFunctional with dataset_name := "ICES_2022" }

/-! ### Structural lemmas about the aggregation loops -/

theorem runGroups_append (ft : FileType) (gs₁ gs₂ : List (CastKey × List Row))
    (st : DataLists × Nat) :
    runGroups ft (gs₁ ++ gs₂) st =
      match runGroups ft gs₁ st with
      | Except.error e => Except.error e
      | Except.ok st' => runGroups ft gs₂ st' := by
  induction gs₁ generalizing st with
  | nil => simp [runGroups]
  | cons g gs ih =>
    simp only [List.cons_append, runGroups]
    cases processGroup ft g.1 g.2 st.2 st.1 with
    | error e => rfl
    | ok dl => exact ih _

theorem processChunks_eq_runGroups (ft : FileType) (cs : List (List Row))
    (st : DataLists × Nat) :
    processChunks ft cs st = runGroups ft (cs.flatMap (groupBy ft)) st := by
  induction cs generalizing st with
  | nil => simp [processChunks, runGroups]
  | cons c cs ih =>
    simp only [List.flatMap_cons, processChunks, runGroups_append]
    cases runGroups ft (groupBy ft c) st with
    | error e => rfl
    | ok st' => exact ih st'

theorem process_chunks_eq_runGroups (ft : FileType) (chunks : List (List Row)) :
    process_chunks ft chunks =
      runGroups ft (castGroups ft chunks) (initDataLists, 0) :=
  processChunks_eq_runGroups ft chunks (initDataLists, 0)

/-- What a successful group-loop run over `gs`, started at accumulator
`dl₀` and counter `i₀`, guarantees about the final accumulator `dl` and
counter `n`.  `prs` collects the per-group outcomes of the fallible steps. -/
structure RunSpec (ft : FileType) (gs : List (CastKey × List Row))
    (dl₀ : DataLists) (i₀ : Nat) (dl : DataLists) (n : Nat)
    (prs : List ProfileRec) : Prop where
  outcomes : List.Forall₂ (fun g pr => groupOutcome g.1 g.2 = Except.ok pr) gs prs
  count : n = i₀ + gs.length
  cruise : dl.orig_cruise_id = dl₀.orig_cruise_id ++ gs.map (fun g => g.1.cruise)
  station : dl.station_no = dl₀.station_no ++ gs.map (fun g => g.1.station)
  lat : dl.lat = dl₀.lat ++ gs.map (fun g => g.1.lat)
  lon : dl.lon = dl₀.lon ++ gs.map (fun g => g.1.lon)
  datestr : dl.datestr = dl₀.datestr ++ prs.map ProfileRec.datestr
  timestamp : dl.timestamp = dl₀.timestamp ++ prs.map ProfileRec.timestamp
  bottom : dl.bottom_depth = dl₀.bottom_depth ++
    (if ft ≠ FileType.xbt then gs.flatMap (fun g => g.1.botDepth.toList) else [])
  shallow : dl.shallowest_depth = dl₀.shallowest_depth ++ prs.map ProfileRec.shallow
  deep : dl.deepest_depth = dl₀.deepest_depth ++ prs.map ProfileRec.deep
  depth : dl.depth = dl₀.depth ++ gs.flatMap (fun g => g.2.map Row.depth)
  temp : dl.temp = dl₀.temp ++ gs.flatMap (fun g => g.2.map Row.temp)
  press : dl.press = dl₀.press ++
    (if ft ≠ FileType.xbt then gs.flatMap (fun g => g.2.map Row.press) else [])
  psal : dl.psal = dl₀.psal ++
    (if ft ≠ FileType.xbt then gs.flatMap (fun g => g.2.map Row.psal) else [])
  pindex : dl.parent_index = dl₀.parent_index ++ pindexFrom i₀ gs

theorem processGroup_ok {ft : FileType} {k : CastKey} {rows : List Row}
    {i : Nat} {dl₀ dl₁ : DataLists}
    (h : processGroup ft k rows i dl₀ = Except.ok dl₁) :
    ∃ pr, groupOutcome k rows = Except.ok pr ∧ dl₁ = appendGroup ft dl₀ i k rows pr := by
  unfold processGroup at h
  cases hgo : groupOutcome k rows with
  | error e => rw [hgo] at h; simp [Except.map] at h
  | ok pr =>
    rw [hgo] at h
    simp only [Except.map, Except.ok.injEq] at h
    exact ⟨pr, rfl, h.symm⟩

/-- Master characterisation of a successful group-loop run. -/
theorem runGroups_ok {ft : FileType} {gs : List (CastKey × List Row)}
    {dl₀ : DataLists} {i₀ : Nat} {dl : DataLists} {n : Nat}
    (h : runGroups ft gs (dl₀, i₀) = Except.ok (dl, n)) :
    ∃ prs : List ProfileRec, RunSpec ft gs dl₀ i₀ dl n prs := by
  induction gs generalizing dl₀ i₀ with
  | nil =>
    simp only [runGroups, Except.ok.injEq, Prod.mk.injEq] at h
    obtain ⟨h1, h2⟩ := h
    subst h1; subst h2
    exact ⟨[], by constructor <;> simp [pindexFrom]⟩
  | cons g gs ih =>
    simp only [runGroups] at h
    cases hpg : processGroup ft g.1 g.2 i₀ dl₀ with
    | error e => rw [hpg] at h; cases h
    | ok dl₁ =>
      rw [hpg] at h
      obtain ⟨prs, hs⟩ := ih h
      obtain ⟨pr, hpr, hdl₁⟩ := processGroup_ok hpg
      subst hdl₁
      refine ⟨pr :: prs, ?_⟩
      constructor
      · exact List.Forall₂.cons hpr hs.outcomes
      · rw [hs.count]; simp only [List.length_cons]; omega
      · rw [hs.cruise]; simp [appendGroup, List.append_assoc]
      · rw [hs.station]; simp [appendGroup, List.append_assoc]
      · rw [hs.lat]; simp [appendGroup, List.append_assoc]
      · rw [hs.lon]; simp [appendGroup, List.append_assoc]
      · rw [hs.datestr]; simp [appendGroup, List.append_assoc]
      · rw [hs.timestamp]; simp [appendGroup, List.append_assoc]
      · rw [hs.bottom]
        by_cases hx : ft = FileType.xbt <;>
          simp [appendGroup, hx, List.append_assoc]
      · rw [hs.shallow]; simp [appendGroup, List.append_assoc]
      · rw [hs.deep]; simp [appendGroup, List.append_assoc]
      · rw [hs.depth]; simp [appendGroup, List.append_assoc]
      · rw [hs.temp]; simp [appendGroup, List.append_assoc]
      · rw [hs.press]
        by_cases hx : ft = FileType.xbt <;>
          simp [appendGroup, hx, List.append_assoc]
      · rw [hs.psal]
        by_cases hx : ft = FileType.xbt <;>
          simp [appendGroup, hx, List.append_assoc]
      · rw [hs.pindex]; simp [appendGroup, pindexFrom, List.append_assoc]

/-- Master characterisation of a successful whole-input aggregation. -/
theorem process_chunks_ok {ft : FileType} {chunks : List (List Row)}
    {dl : DataLists} {n : Nat}
    (h : process_chunks ft chunks = Except.ok (dl, n)) :
    ∃ prs : List ProfileRec,
      RunSpec ft (castGroups ft chunks) initDataLists 0 dl n prs := by
  rw [process_chunks_eq_runGroups] at h
  exact runGroups_ok h

/-! ### Facts about the chunk-local grouping -/

theorem groupBy_keys (ft : FileType) (c : List Row) :
    (groupBy ft c).map Prod.fst = groupKeys ft c := by
  simp [groupBy, List.map_map, Function.comp_def]

theorem mem_groupBy {ft : FileType} {c : List Row} {g : CastKey × List Row}
    (h : g ∈ groupBy ft c) :
    g.1 ∈ (c.map (rowKey ft)).dedup ∧ g.2 = groupRows ft c g.1 := by
  simp only [groupBy, List.mem_map] at h
  obtain ⟨k, hk, rfl⟩ := h
  exact ⟨((List.perm_insertionSort _ _).mem_iff).1 hk, rfl⟩

theorem groupBy_rows_ne_nil {ft : FileType} {c : List Row}
    {g : CastKey × List Row} (h : g ∈ groupBy ft c) : g.2 ≠ [] := by
  obtain ⟨hk, hrows⟩ := mem_groupBy h
  rw [List.mem_dedup, List.mem_map] at hk
  obtain ⟨r, hr, hkey⟩ := hk
  rw [hrows]
  intro hnil
  have : r ∈ groupRows ft c g.1 := by
    rw [groupRows, List.mem_filter]
    exact ⟨hr, by simp [hkey]⟩
  rw [hnil] at this
  cases this

theorem mem_groupBy_row_key {ft : FileType} {c : List Row}
    {g : CastKey × List Row} (h : g ∈ groupBy ft c) :
    ∀ r ∈ g.2, rowKey ft r = g.1 := by
  obtain ⟨-, hrows⟩ := mem_groupBy h
  intro r hr
  rw [hrows, groupRows, List.mem_filter] at hr
  exact of_decide_eq_true hr.2

theorem groupRows_length (ft : FileType) (c : List Row) (k : CastKey) :
    (groupRows ft c k).length = (c.map (rowKey ft)).count k := by
  rw [groupRows, ← List.countP_eq_length_filter, List.count, List.countP_map]
  apply List.countP_congr
  intro r _
  by_cases hk : rowKey ft r = k <;> simp [hk]

/-- The sizes of a chunk's groups sum to the chunk's row count: the groups
partition the chunk. -/
theorem sum_groupBy_sizes (ft : FileType) (c : List Row) :
    ((groupBy ft c).map (fun g => g.2.length)).sum = c.length := by
  have h1 : (groupBy ft c).map (fun g => g.2.length) =
      (groupKeys ft c).map (fun k => (groupRows ft c k).length) := by
    simp [groupBy, List.map_map]
  have h2 : List.Perm
      ((groupKeys ft c).map (fun k => (groupRows ft c k).length))
      (((c.map (rowKey ft)).dedup).map (fun k => (groupRows ft c k).length)) :=
    (List.perm_insertionSort _ _).map _
  rw [h1, h2.sum_eq]
  have h3 : ((c.map (rowKey ft)).dedup).map (fun k => (groupRows ft c k).length) =
      ((c.map (rowKey ft)).dedup).map (fun k => (c.map (rowKey ft)).count k) :=
    List.map_congr_left (fun k _ => groupRows_length ft c k)
  rw [h3, List.sum_map_count_dedup_eq_length, List.length_map]

theorem groupBy_length (ft : FileType) (c : List Row) :
    (groupBy ft c).length = (c.map (rowKey ft)).dedup.length := by
  rw [groupBy, List.length_map, groupKeys, List.length_insertionSort]

/-! ### Facts about the parent-index blocks -/

theorem pindexFrom_length (i : Nat) (gs : List (CastKey × List Row)) :
    (pindexFrom i gs).length = (gs.map (fun g => g.2.length)).sum := by
  induction gs generalizing i with
  | nil => simp [pindexFrom]
  | cons g gs ih => simp [pindexFrom, ih]

theorem count_pindexFrom_lt (gs : List (CastKey × List Row)) (i j : Nat)
    (h : j < i) : (pindexFrom i gs).count j = 0 := by
  induction gs generalizing i with
  | nil => simp [pindexFrom]
  | cons g gs ih =>
    simp only [pindexFrom, List.count_append]
    rw [ih (i + 1) (by omega), List.count_replicate]
    simp [Nat.ne_of_gt h]

theorem count_pindexFrom_add (gs : List (CastKey × List Row)) (i k : Nat) :
    (pindexFrom i gs).count (i + k) =
      ((gs[k]?).map (fun g => g.2.length)).getD 0 := by
  induction gs generalizing i k with
  | nil => simp [pindexFrom]
  | cons g gs ih =>
    simp only [pindexFrom, List.count_append]
    cases k with
    | zero =>
      rw [count_pindexFrom_lt gs (i + 1) (i + 0) (by omega), List.count_replicate]
      simp
    | succ k' =>
      have h1 : (List.replicate g.2.length i).count (i + (k' + 1)) = 0 := by
        rw [List.count_replicate]
        have hne : (i == i + (k' + 1)) = false := by
          simp only [beq_eq_false_iff_ne, ne_eq]
          omega
        simp [hne]
      have h2 : i + (k' + 1) = i + 1 + k' := by omega
      rw [h1, h2, ih (i + 1) k']
      simp

theorem mem_pindexFrom {gs : List (CastKey × List Row)} {i j : Nat}
    (hne : ∀ g ∈ gs, g.2 ≠ []) :
    j ∈ pindexFrom i gs ↔ i ≤ j ∧ j < i + gs.length := by
  induction gs generalizing i with
  | nil =>
    simp only [pindexFrom, List.length_nil]
    constructor
    · intro h; cases h
    · intro h; exact absurd h (by omega)
  | cons g gs ih =>
    have hg : g.2 ≠ [] := hne g (List.mem_cons_self g gs)
    have hlen : g.2.length ≠ 0 := by
      intro h0; exact hg (List.eq_nil_of_length_eq_zero h0)
    rw [pindexFrom, List.mem_append, List.mem_replicate,
      ih (fun g' hg' => hne g' (List.mem_cons_of_mem g hg'))]
    simp only [List.length_cons]
    constructor
    · rintro (⟨-, rfl⟩ | ⟨h1, h2⟩) <;> omega
    · rintro ⟨h1, h2⟩
      by_cases hij : j = i
      · exact Or.inl ⟨hlen, hij⟩
      · exact Or.inr ⟨by omega, by omega⟩

theorem castGroups_rows_ne_nil {ft : FileType} {chunks : List (List Row)}
    {g : CastKey × List Row} (h : g ∈ castGroups ft chunks) : g.2 ≠ [] := by
  rw [castGroups, List.mem_flatMap] at h
  obtain ⟨c, -, hg⟩ := h
  exact groupBy_rows_ne_nil hg

theorem castGroups_key_row {ft : FileType} {chunks : List (List Row)}
    {g : CastKey × List Row} (h : g ∈ castGroups ft chunks) :
    ∃ r : Row, g.1 = rowKey ft r := by
  rw [castGroups, List.mem_flatMap] at h
  obtain ⟨c, -, hg⟩ := h
  obtain ⟨hk, -⟩ := mem_groupBy hg
  rw [List.mem_dedup, List.mem_map] at hk
  obtain ⟨r, -, hkey⟩ := hk
  exact ⟨r, hkey.symm⟩

/-- Total group-size sum over the whole input equals the total row count:
the chunk-local groups partition the input rows. -/
theorem sum_castGroups_sizes (ft : FileType) (chunks : List (List Row)) :
    ((castGroups ft chunks).map (fun g => g.2.length)).sum =
      (chunks.map List.length).sum := by
  induction chunks with
  | nil => rfl
  | cons c cs ih =>
    rw [castGroups, List.flatMap_cons, List.map_append, List.sum_append,
      sum_groupBy_sizes ft c]
    simp only [List.map_cons, List.sum_cons]
    rw [← castGroups, ih]

theorem castGroups_length_eq_sum (ft : FileType) (chunks : List (List Row)) :
    (castGroups ft chunks).length =
      (chunks.map (fun c => ((c.map (rowKey ft)).dedup).length)).sum := by
  rw [castGroups, List.flatMap_def, List.length_flatten, List.map_map]
  congr 1
  exact List.map_congr_left (fun c _ => groupBy_length ft c)

/-! ### Claim theorems -/

/-- C3: for every input, the number of profile records produced equals the
sum over chunks of the number of distinct `CastKey` groups within each
chunk — grouping is strictly chunk-local, so a logical cast whose rows span
two chunks yields one profile record per chunk, never a merged one. -/
theorem profileCount_eq_sum_chunkLocal_groups {ft : FileType}
    {chunks : List (List Row)} {dl : DataLists} {n : Nat}
    (h : process_chunks ft chunks = Except.ok (dl, n)) :
    dl.orig_cruise_id.length =
      (chunks.map (fun c => ((c.map (rowKey ft)).dedup).length)).sum ∧
    n = (chunks.map (fun c => ((c.map (rowKey ft)).dedup).length)).sum := by
  obtain ⟨prs, hs⟩ := process_chunks_ok h
  have hlen : dl.orig_cruise_id.length = (castGroups ft chunks).length := by
    rw [hs.cruise]
    simp [initDataLists]
  have hn : n = (castGroups ft chunks).length := by
    rw [hs.count]
    simp
  rw [hlen, hn, castGroups_length_eq_sum]
  exact ⟨rfl, rfl⟩

/-- C3 witness: two chunks holding rows of one and the same cast key still
yield one profile record per chunk (two records in total). -/
theorem profileCount_eq_sum_chunkLocal_groups_witness :
    splitDL.orig_cruise_id.length =
      (([[sampleRow 5], [sampleRow 6]].map
        (fun c => ((c.map (rowKey FileType.xbt)).dedup).length)).sum) ∧
    (2 : Nat) =
      (([[sampleRow 5], [sampleRow 6]].map
        (fun c => ((c.map (rowKey FileType.xbt)).dedup).length)).sum) :=
  profileCount_eq_sum_chunkLocal_groups
    (by rfl :
      process_chunks FileType.xbt [[sampleRow 5], [sampleRow 6]] =
        Except.ok (splitDL, 2))

/-- C2: after processing any input, the accumulated `parent_index` list
contains exactly the values of the contiguous range `[0, profileCount)`,
where `profileCount` is the number of profile records appended (and equals
the final value of the running counter, initialised once to 0 and never
reset across chunk boundaries); each value `k` appears exactly as many
times as the `k`-th cast group has rows, so indices are globally unique
across chunks. -/
theorem parent_index_partition {ft : FileType} {chunks : List (List Row)}
    {dl : DataLists} {n : Nat}
    (h : process_chunks ft chunks = Except.ok (dl, n)) :
    n = dl.orig_cruise_id.length ∧
    (∀ j, j ∈ dl.parent_index ↔ j < n) ∧
    (∀ j (hj : j < (castGroups ft chunks).length),
      dl.parent_index.count j =
        ((castGroups ft chunks).get ⟨j, hj⟩).2.length) := by
  obtain ⟨prs, hs⟩ := process_chunks_ok h
  have hpi : dl.parent_index = pindexFrom 0 (castGroups ft chunks) := by
    rw [hs.pindex]
    simp [initDataLists]
  have hn : n = (castGroups ft chunks).length := by
    rw [hs.count]
    simp
  refine ⟨?_, ?_, ?_⟩
  · rw [hs.cruise, hn]
    simp [initDataLists]
  · intro j
    rw [hpi, mem_pindexFrom (fun g hg => castGroups_rows_ne_nil hg), hn]
    omega
  · intro j hj
    have hc := count_pindexFrom_add (castGroups ft chunks) 0 j
    rw [Nat.zero_add] at hc
    rw [hpi, hc, List.getElem?_eq_getElem hj]
    simp

/-- C2 witness: the two-cast chunk yields `parent_index = [0, 1]`,
covering `[0, 2)` with one observation per cast. -/
theorem parent_index_partition_witness :
    (2 : Nat) = sortedDL.orig_cruise_id.length ∧
    (∀ j, j ∈ sortedDL.parent_index ↔ j < 2) ∧
    (∀ j (hj : j < (castGroups FileType.xbt [[rowStationB, rowStationA]]).length),
      sortedDL.parent_index.count j =
        ((castGroups FileType.xbt [[rowStationB, rowStationA]]).get ⟨j, hj⟩).2.length) :=
  parent_index_partition
    (by rfl :
      process_chunks FileType.xbt [[rowStationB, rowStationA]] =
        Except.ok (sortedDL, 2))

theorem sum_map_one {α : Type} (l : List α) :
    (l.map (fun _ => (1 : Nat))).sum = l.length := by
  induction l with
  | nil => rfl
  | cons a as ih => simp [ih, Nat.add_comm]

theorem allEqual_of_const {ls : List Nat} {N : Nat} (h : ∀ m ∈ ls, m = N) :
    allEqual ls = true := by
  cases ls with
  | nil => rfl
  | cons a as =>
    rw [allEqual, List.all_eq_true]
    intro x hx
    have hxN := h x hx
    have haN := h a (List.mem_cons_self a as)
    simp [hxN, haN]

/-- C4: after a successful aggregation, every profile-dimension list has
length equal to the number of cast groups processed, every obs-dimension
list has length equal to the total number of input rows, and the
dimension-length mismatch failure at dataset assembly is unreachable. -/
theorem dimension_lengths_consistent {ft : FileType} {chunks : List (List Row)}
    {dl : DataLists} {n : Nat}
    (h : process_chunks ft chunks = Except.ok (dl, n)) (dataPath now : String) :
    (∀ m ∈ profileDimLens ft dl, m = (castGroups ft chunks).length) ∧
    (∀ m ∈ obsDimLens ft dl, m = (chunks.map List.length).sum) ∧
    (∃ ds, create_dataset ft dl dataPath now = Except.ok ds) := by
  obtain ⟨prs, hs⟩ := process_chunks_ok h
  have hprs : prs.length = (castGroups ft chunks).length :=
    (List.Forall₂.length_eq hs.outcomes).symm
  have h1 : dl.orig_cruise_id.length = (castGroups ft chunks).length := by
    rw [hs.cruise]; simp [initDataLists]
  have h2 : dl.station_no.length = (castGroups ft chunks).length := by
    rw [hs.station]; simp [initDataLists]
  have h3 : dl.lat.length = (castGroups ft chunks).length := by
    rw [hs.lat]; simp [initDataLists]
  have h4 : dl.lon.length = (castGroups ft chunks).length := by
    rw [hs.lon]; simp [initDataLists]
  have h5 : dl.datestr.length = (castGroups ft chunks).length := by
    rw [hs.datestr]; simp [initDataLists, hprs]
  have h6 : dl.timestamp.length = (castGroups ft chunks).length := by
    rw [hs.timestamp]; simp [initDataLists, hprs]
  have h7 : dl.shallowest_depth.length = (castGroups ft chunks).length := by
    rw [hs.shallow]; simp [initDataLists, hprs]
  have h8 : dl.deepest_depth.length = (castGroups ft chunks).length := by
    rw [hs.deep]; simp [initDataLists, hprs]
  have hbot : ft ≠ FileType.xbt →
      dl.bottom_depth.length = (castGroups ft chunks).length := by
    intro hx
    rw [hs.bottom, if_pos hx]
    simp only [initDataLists, List.nil_append]
    rw [List.flatMap_def, List.length_flatten, List.map_map]
    have hone : ∀ g ∈ castGroups ft chunks,
        (List.length ∘ fun g => g.1.botDepth.toList) g = (fun _ => (1 : Nat)) g := by
      intro g hg
      obtain ⟨r, hr⟩ := castGroups_key_row hg
      simp [Function.comp, hr, rowKey, hx]
    rw [List.map_congr_left hone, sum_map_one]
  have hsizes : ∀ f : Row → Int,
      ((castGroups ft chunks).flatMap (fun g => g.2.map f)).length =
        (chunks.map List.length).sum := by
    intro f
    rw [List.flatMap_def, List.length_flatten, List.map_map]
    have : ∀ g ∈ castGroups ft chunks,
        (List.length ∘ fun g => g.2.map f) g = (fun g : CastKey × List Row => g.2.length) g := by
      intro g _
      simp [Function.comp]
    rw [List.map_congr_left this, sum_castGroups_sizes]
  have hd : dl.depth.length = (chunks.map List.length).sum := by
    rw [hs.depth]; simp only [initDataLists, List.nil_append]; exact hsizes Row.depth
  have ht : dl.temp.length = (chunks.map List.length).sum := by
    rw [hs.temp]; simp only [initDataLists, List.nil_append]; exact hsizes Row.temp
  have hpi : dl.parent_index.length = (chunks.map List.length).sum := by
    rw [hs.pindex]
    simp only [initDataLists, List.nil_append]
    rw [pindexFrom_length, sum_castGroups_sizes]
  have hpress : ft ≠ FileType.xbt →
      dl.press.length = (chunks.map List.length).sum := by
    intro hx
    rw [hs.press]
    simp only [initDataLists, List.nil_append, ne_eq, hx, not_false_iff, if_true]
    exact hsizes Row.press
  have hpsal : ft ≠ FileType.xbt →
      dl.psal.length = (chunks.map List.length).sum := by
    intro hx
    rw [hs.psal]
    simp only [initDataLists, List.nil_append, ne_eq, hx, not_false_iff, if_true]
    exact hsizes Row.psal
  have hprofile : ∀ m ∈ profileDimLens ft dl, m = (castGroups ft chunks).length := by
    intro m hm
    rw [profileDimLens] at hm
    rcases List.mem_append.1 hm with hm | hm
    · simp only [List.mem_cons, List.not_mem_nil, or_false] at hm
      rcases hm with rfl | rfl | rfl | rfl | rfl | rfl | rfl | rfl
      exacts [h6, h3, h4, h1, h2, h5, h7, h8]
    · by_cases hx : ft = FileType.xbt
      · simp [hx] at hm
      · simp only [ne_eq, hx, not_false_iff, if_true, List.mem_cons,
          List.not_mem_nil, or_false] at hm
        rw [hm]; exact hbot hx
  have hobs : ∀ m ∈ obsDimLens ft dl, m = (chunks.map List.length).sum := by
    intro m hm
    rw [obsDimLens] at hm
    rcases List.mem_append.1 hm with hm | hm
    · simp only [List.mem_cons, List.not_mem_nil, or_false] at hm
      rcases hm with rfl | rfl | rfl
      exacts [hd, ht, hpi]
    · by_cases hx : ft = FileType.xbt
      · simp [hx] at hm
      · simp only [ne_eq, hx, not_false_iff, if_true, List.mem_cons,
          List.not_mem_nil, or_false] at hm
        rcases hm with rfl | rfl
        exacts [hpress hx, hpsal hx]
  refine ⟨hprofile, hobs, ?_⟩
  rw [create_dataset, buildDataset, if_pos]
  · exact ⟨_, rfl⟩
  · rw [allEqual_of_const hprofile, allEqual_of_const hobs]
    rfl

/-- C4 witness: the two-cast run assembles a dataset with consistent
dimension lengths. -/
theorem dimension_lengths_consistent_witness :
    (∀ m ∈ profileDimLens FileType.xbt sortedDL,
      m = (castGroups FileType.xbt [[rowStationB, rowStationA]]).length) ∧
    (∀ m ∈ obsDimLens FileType.xbt sortedDL,
      m = ([[rowStationB, rowStationA]].map List.length).sum) ∧
    (∃ ds, create_dataset FileType.xbt sortedDL "/d/sub/f.txt" "t" = Except.ok ds) :=
  dimension_lengths_consistent
    (by rfl :
      process_chunks FileType.xbt [[rowStationB, rowStationA]] =
        Except.ok (sortedDL, 2))
    "/d/sub/f.txt" "t"


theorem pymin_ok {l : List Int} {v : Int} (h : pymin l = Except.ok v) :
    l.min? = some v := by
  unfold pymin at h
  cases hm : l.min? with
  | none => rw [hm] at h; cases h
  | some w => rw [hm] at h; cases h; rfl

theorem pymax_ok {l : List Int} {v : Int} (h : pymax l = Except.ok v) :
    l.max? = some v := by
  unfold pymax at h
  cases hm : l.max? with
  | none => rw [hm] at h; cases h
  | some w => rw [hm] at h; cases h; rfl

/-- What a successful group outcome pins down: the date step succeeded and
the shallowest/deepest fields obey the source's min/max computations. -/
theorem groupOutcome_ok_spec {k : CastKey} {rows : List Row} {pr : ProfileRec}
    (h : groupOutcome k rows = Except.ok pr) :
    get_date k.year k.month k.day k.hour k.minute =
      Except.ok (pr.datestr, pr.timestamp) ∧
    shallowestOf (rows.map Row.depth) = some pr.shallow ∧
    (rows.map Row.depth).max? = some pr.deep := by
  unfold groupOutcome at h
  split at h
  · cases h
  next ds ts heq =>
    split at h
    · cases h
    next sh heq2 =>
      split at h
      · cases h
      next dp heq3 =>
        cases h
        refine ⟨heq, ?_, pymax_ok heq3⟩
        rw [shallowestOf]
        by_cases hlen : (rows.map Row.depth).length > 1
        · rw [if_pos hlen] at heq2 ⊢
          exact pymin_ok heq2
        · rw [if_neg hlen] at heq2 ⊢
          exact pymin_ok heq2

/-- C1: for every cast group of a successful run, if the group has exactly
one depth reading then the appended `shallowest_depth` is that reading
(whatever its value, zero included); if it has more than one reading then
the appended `shallowest_depth` is the minimum of the group's strictly
non-zero depth readings. -/
theorem shallowest_depth_rule {ft : FileType} {chunks : List (List Row)}
    {dl : DataLists} {n : Nat}
    (h : process_chunks ft chunks = Except.ok (dl, n))
    (j : Nat) (hj : j < (castGroups ft chunks).length) :
    ∃ sh : Int, dl.shallowest_depth[j]? = some sh ∧
      ((((castGroups ft chunks).get ⟨j, hj⟩).2.map Row.depth).length = 1 →
        ((castGroups ft chunks).get ⟨j, hj⟩).2.map Row.depth = [sh]) ∧
      (1 < (((castGroups ft chunks).get ⟨j, hj⟩).2.map Row.depth).length →
        ((((castGroups ft chunks).get ⟨j, hj⟩).2.map Row.depth).filter
            (fun d => d ≠ 0)).min? = some sh) := by
  obtain ⟨prs, hs⟩ := process_chunks_ok h
  obtain ⟨hlen, hget⟩ := List.forall₂_iff_get.1 hs.outcomes
  have hjp : j < prs.length := by omega
  have hR := hget j hj hjp
  obtain ⟨-, hshal, -⟩ := groupOutcome_ok_spec hR
  refine ⟨(prs.get ⟨j, hjp⟩).shallow, ?_, ?_, ?_⟩
  · rw [hs.shallow]
    simp [initDataLists, List.getElem?_eq_getElem, hjp]
  · intro hone
    obtain ⟨d, hd⟩ := List.length_eq_one.1 hone
    rw [hd] at hshal ⊢
    rw [shallowestOf, if_neg (by simp)] at hshal
    have hds : ([d] : List Int).min? = some d := rfl
    rw [hds] at hshal
    rw [Option.some_inj.1 hshal]
  · intro hmore
    rw [shallowestOf, if_pos hmore] at hshal
    exact hshal

/-- C1 witness: the `[0, 10, 50]` cast has more than one reading, and the
appended shallowest depth is `10`, the minimum of the non-zero readings. -/
theorem shallowest_depth_rule_witness :
    ∃ sh : Int, sampleDL.shallowest_depth[0]? = some sh ∧
      ((((castGroups FileType.xbt [[sampleRow 0, sampleRow 10, sampleRow 50]]).get
            ⟨0, by decide⟩).2.map Row.depth).length = 1 →
        ((castGroups FileType.xbt [[sampleRow 0, sampleRow 10, sampleRow 50]]).get
            ⟨0, by decide⟩).2.map Row.depth = [sh]) ∧
      (1 < (((castGroups FileType.xbt [[sampleRow 0, sampleRow 10, sampleRow 50]]).get
            ⟨0, by decide⟩).2.map Row.depth).length →
        ((((castGroups FileType.xbt [[sampleRow 0, sampleRow 10, sampleRow 50]]).get
            ⟨0, by decide⟩).2.map Row.depth).filter
            (fun d => d ≠ 0)).min? = some sh) :=
  shallowest_depth_rule
    (by rfl :
      process_chunks FileType.xbt [[sampleRow 0, sampleRow 10, sampleRow 50]] =
        Except.ok (sampleDL, 1))
    0 (by decide)


/-- C5 counterexample: in the chunk `[rowStationB, rowStationA]` the first
distinct cast key in first-seen order has station `B`, but the 0-th profile
record produced has station `A` — groups are emitted in ascending key
order, not first-seen order. -/
theorem first_seen_order_counterexample :
    process_chunks FileType.xbt [[rowStationB, rowStationA]] =
      Except.ok (sortedDL, 2) ∧
    sortedDL.station_no = ["A", "B"] ∧
    (([rowStationB, rowStationA].map (rowKey FileType.xbt)).dedup).map
        CastKey.station = ["B", "A"] :=
  ⟨by rfl, rfl, by rfl⟩

/-- C5 (amended): profile records are appended one per distinct `CastKey`
per chunk, chunks in input order; within each chunk the groups are emitted
in ascending `CastKey` order (the sort pandas `groupby` performs), not in
first-seen order, and the profile index is assigned in that emission order
starting at 0. -/
theorem profiles_in_chunkwise_sorted_order {ft : FileType}
    {chunks : List (List Row)} {dl : DataLists} {n : Nat}
    (h : process_chunks ft chunks = Except.ok (dl, n)) :
    dl.orig_cruise_id = (castGroups ft chunks).map (fun g => g.1.cruise) ∧
    dl.station_no = (castGroups ft chunks).map (fun g => g.1.station) ∧
    n = (castGroups ft chunks).length ∧
    ∀ c ∈ chunks, (groupBy ft c).map Prod.fst =
      ((c.map (rowKey ft)).dedup).insertionSort (fun a b => keyLE a b) := by
  obtain ⟨prs, hs⟩ := process_chunks_ok h
  refine ⟨?_, ?_, ?_, ?_⟩
  · rw [hs.cruise]; simp [initDataLists]
  · rw [hs.station]; simp [initDataLists]
  · rw [hs.count]; simp
  · intro c _
    rw [groupBy_keys, groupKeys]

/-- C5 witness: the amended order statement at the two-cast chunk. -/
theorem profiles_in_chunkwise_sorted_order_witness :
    sortedDL.orig_cruise_id =
      (castGroups FileType.xbt [[rowStationB, rowStationA]]).map
        (fun g => g.1.cruise) ∧
    sortedDL.station_no =
      (castGroups FileType.xbt [[rowStationB, rowStationA]]).map
        (fun g => g.1.station) ∧
    (2 : Nat) = (castGroups FileType.xbt [[rowStationB, rowStationA]]).length ∧
    ∀ c ∈ [[rowStationB, rowStationA]], (groupBy FileType.xbt c).map Prod.fst =
      ((c.map (rowKey FileType.xbt)).dedup).insertionSort (fun a b => keyLE a b) :=
  profiles_in_chunkwise_sorted_order
    (by rfl :
      process_chunks FileType.xbt [[rowStationB, rowStationA]] =
        Except.ok (sortedDL, 2))


theorem replicate_zip_int (i : Nat) (ds : List Int) :
    (List.replicate ds.length i).zip ds = ds.map (fun d => (i, d)) := by
  induction ds with
  | nil => rfl
  | cons d ds ih => simp [List.replicate_succ, ih]

theorem partition_pindex_lt (gs : List (CastKey × List Row)) (i j : Nat)
    (hj : j < i) :
    (((pindexFrom i gs).zip (gs.flatMap (fun g => g.2.map Row.depth))).filter
      (fun p => p.1 = j)).map Prod.snd = [] := by
  induction gs generalizing i with
  | nil => rfl
  | cons g gs ih =>
    rw [pindexFrom, List.flatMap_cons, List.zip_append (by simp),
      List.filter_append, List.map_append]
    have h1 : ((List.replicate g.2.length i).zip (g.2.map Row.depth)).filter
        (fun p => p.1 = j) = [] := by
      have hrw : (List.replicate g.2.length i) =
          List.replicate (g.2.map Row.depth).length i := by simp
      rw [hrw, replicate_zip_int, List.filter_map]
      have : ∀ x ∈ g.2.map Row.depth,
          ¬((fun p : Nat × Int => decide (p.1 = j)) ∘ fun d => (i, d)) x = true := by
        intro x _
        simp [Function.comp]
        omega
      rw [List.filter_eq_nil_iff.2 this, List.map_nil]
    rw [h1, ih (i + 1) (by omega)]
    simp

theorem partition_pindex_add (gs : List (CastKey × List Row)) (i k : Nat) :
    (((pindexFrom i gs).zip (gs.flatMap (fun g => g.2.map Row.depth))).filter
      (fun p => p.1 = i + k)).map Prod.snd =
    ((gs[k]?).map (fun g => g.2.map Row.depth)).getD [] := by
  induction gs generalizing i k with
  | nil => simp [pindexFrom]
  | cons g gs ih =>
    rw [pindexFrom, List.flatMap_cons, List.zip_append (by simp),
      List.filter_append, List.map_append]
    have hrw : (List.replicate g.2.length i) =
        List.replicate (g.2.map Row.depth).length i := by simp
    cases k with
    | zero =>
      have h2 := partition_pindex_lt gs (i + 1) (i + 0) (by omega)
      rw [h2, List.append_nil, hrw, replicate_zip_int, List.filter_map]
      have hall : ∀ x ∈ g.2.map Row.depth,
          ((fun p : Nat × Int => decide (p.1 = i + 0)) ∘ fun d => (i, d)) x = true := by
        intro x _
        simp [Function.comp]
      rw [List.filter_eq_self.2 hall]
      simp
    | succ k' =>
      have h1 : ((List.replicate g.2.length i).zip (g.2.map Row.depth)).filter
          (fun p => p.1 = i + (k' + 1)) = [] := by
        rw [hrw, replicate_zip_int, List.filter_map]
        have : ∀ x ∈ g.2.map Row.depth,
            ¬((fun p : Nat × Int => decide (p.1 = i + (k' + 1))) ∘ fun d => (i, d)) x = true := by
          intro x _
          simp [Function.comp]
        rw [List.filter_eq_nil_iff.2 this, List.map_nil]
      have h3 : i + (k' + 1) = i + 1 + k' := by omega
      rw [h1, List.map_nil, List.nil_append, h3, ih (i + 1) k']
      simp


/-- C7 counterexample: for the `[0, 10, 50]` cast, re-grouping the
observations by `parent_index` and recomputing the plain minimum of the
partition's depth values yields `0`, while the stored `shallowest_depth`
is `10` (the non-zero rule) — recomputing the minimum does not reproduce
the stored shallowest depth. -/
theorem roundtrip_min_counterexample :
    process_chunks FileType.xbt [[sampleRow 0, sampleRow 10, sampleRow 50]] =
      Except.ok (sampleDL, 1) ∧
    (obsDepthsOf sampleDL 0).min? = some 0 ∧
    sampleDL.shallowest_depth[0]? = some 10 ∧
    some (0 : Int) ≠ some (10 : Int) :=
  ⟨by rfl, by rfl, rfl, by decide⟩

/-- C7 (amended): partitioning the observation arrays by `parent_index`,
the maximum of each partition's depth values reproduces the stored
`deepest_depth` exactly, and recomputing the minimum under the
shallowest-depth rule (plain minimum of a single reading, minimum of the
strictly non-zero readings otherwise) reproduces the stored
`shallowest_depth` exactly; the plain minimum does not in general. -/
theorem roundtrip_minmax_by_parent_index {ft : FileType}
    {chunks : List (List Row)} {dl : DataLists} {n : Nat}
    (h : process_chunks ft chunks = Except.ok (dl, n))
    (j : Nat) (hj : j < n) :
    (obsDepthsOf dl j).max? = dl.deepest_depth[j]? ∧
    shallowestOf (obsDepthsOf dl j) = dl.shallowest_depth[j]? := by
  obtain ⟨prs, hs⟩ := process_chunks_ok h
  obtain ⟨hlen, hget⟩ := List.forall₂_iff_get.1 hs.outcomes
  have hn : n = (castGroups ft chunks).length := by rw [hs.count]; simp
  have hjg : j < (castGroups ft chunks).length := by omega
  have hjp : j < prs.length := by omega
  have hobs : obsDepthsOf dl j =
      ((castGroups ft chunks).get ⟨j, hjg⟩).2.map Row.depth := by
    rw [obsDepthsOf, hs.pindex, hs.depth]
    simp only [initDataLists, List.nil_append]
    have h0 := partition_pindex_add (castGroups ft chunks) 0 j
    rw [Nat.zero_add] at h0
    rw [h0, List.getElem?_eq_getElem hjg]
    simp
  obtain ⟨-, hshal, hdeep⟩ := groupOutcome_ok_spec (hget j hjg hjp)
  constructor
  · rw [hobs, hdeep, hs.deep]
    simp [initDataLists, List.getElem?_eq_getElem, hjp]
  · rw [hobs, hshal, hs.shallow]
    simp [initDataLists, List.getElem?_eq_getElem, hjp]

/-- C7 witness: the amended round trip at the `[0, 10, 50]` cast —
max gives `50`, the shallowest rule gives `10`. -/
theorem roundtrip_minmax_by_parent_index_witness :
    (obsDepthsOf sampleDL 0).max? = sampleDL.deepest_depth[0]? ∧
    shallowestOf (obsDepthsOf sampleDL 0) = sampleDL.shallowest_depth[0]? :=
  roundtrip_minmax_by_parent_index
    (by rfl :
      process_chunks FileType.xbt [[sampleRow 0, sampleRow 10, sampleRow 50]] =
        Except.ok (sampleDL, 1))
    0 (by decide)


/-! ### Error propagation -/

theorem parseIntE_error {s : String} {e : PipelineError}
    (h : parseIntE s = Except.error e) : e = PipelineError.dateParseError := by
  unfold parseIntE at h
  split at h
  · cases h
  · cases h
    rfl

theorem get_date_error_kind {year month day hour minute : String}
    {e : PipelineError}
    (h : get_date year month day hour minute = Except.error e) :
    e = PipelineError.dateParseError := by
  unfold get_date at h
  split at h
  next heq => cases h; exact parseIntE_error heq
  split at h
  next heq => cases h; exact parseIntE_error heq
  split at h
  next heq => cases h; exact parseIntE_error heq
  split at h
  next heq => cases h; exact parseIntE_error heq
  split at h
  next heq => cases h; exact parseIntE_error heq
  split at h
  · cases h
  · cases h
    rfl

theorem pymin_error {l : List Int} {e : PipelineError}
    (h : pymin l = Except.error e) : e = PipelineError.dataError := by
  unfold pymin at h
  split at h
  · cases h
  · cases h
    rfl

theorem pymax_error {l : List Int} {e : PipelineError}
    (h : pymax l = Except.error e) : e = PipelineError.dataError := by
  unfold pymax at h
  split at h
  · cases h
  · cases h
    rfl

theorem groupOutcome_error_cases {k : CastKey} {rows : List Row}
    {e : PipelineError} (h : groupOutcome k rows = Except.error e) :
    e = PipelineError.dateParseError ∨ e = PipelineError.dataError := by
  unfold groupOutcome at h
  split at h
  next heq => cases h; exact Or.inl (get_date_error_kind heq)
  split at h
  next heq =>
    cases h
    by_cases hlen : (rows.map Row.depth).length > 1
    · rw [if_pos hlen] at heq
      exact Or.inr (pymin_error heq)
    · rw [if_neg hlen] at heq
      exact Or.inr (pymin_error heq)
  split at h
  next heq => cases h; exact Or.inr (pymax_error heq)
  cases h

theorem processGroup_error_cases {ft : FileType} {k : CastKey}
    {rows : List Row} {i : Nat} {dl : DataLists} {e : PipelineError}
    (h : processGroup ft k rows i dl = Except.error e) :
    e = PipelineError.dateParseError ∨ e = PipelineError.dataError := by
  unfold processGroup at h
  cases hgo : groupOutcome k rows with
  | error e2 =>
    rw [hgo] at h
    cases h
    exact groupOutcome_error_cases hgo
  | ok pr =>
    rw [hgo] at h
    cases h

theorem runGroups_error_cases {ft : FileType} {gs : List (CastKey × List Row)}
    {st : DataLists × Nat} {e : PipelineError}
    (h : runGroups ft gs st = Except.error e) :
    e = PipelineError.dateParseError ∨ e = PipelineError.dataError := by
  induction gs generalizing st with
  | nil => cases h
  | cons g gs ih =>
    rw [runGroups] at h
    cases hpg : processGroup ft g.1 g.2 st.2 st.1 with
    | error e2 =>
      rw [hpg] at h
      cases h
      exact processGroup_error_cases hpg
    | ok dl =>
      rw [hpg] at h
      exact ih h

theorem process_chunks_error_cases {ft : FileType} {chunks : List (List Row)}
    {e : PipelineError} (h : process_chunks ft chunks = Except.error e) :
    e = PipelineError.dateParseError ∨ e = PipelineError.dataError := by
  rw [process_chunks_eq_runGroups] at h
  exact runGroups_error_cases h

theorem runGroups_error_of_mem {ft : FileType} {gs : List (CastKey × List Row)}
    {g : CastKey × List Row} (hg : g ∈ gs)
    (he : ∀ (dl : DataLists) (i : Nat),
      ∃ e, processGroup ft g.1 g.2 i dl = Except.error e) :
    ∀ st, ∃ e, runGroups ft gs st = Except.error e := by
  induction gs with
  | nil => cases hg
  | cons g2 gs ih =>
    intro st
    rw [runGroups]
    cases hpg : processGroup ft g2.1 g2.2 st.2 st.1 with
    | error e2 => exact ⟨e2, rfl⟩
    | ok dl =>
      rcases List.mem_cons.1 hg with rfl | hmem
      · obtain ⟨e2, he2⟩ := he st.1 st.2
        rw [he2] at hpg
        cases hpg
      · exact ih hmem (dl, st.2 + 1)

/-- Membership of a row's group in its chunk's grouping. -/
theorem key_mem_groupBy {ft : FileType} {c : List Row} {r : Row} (hr : r ∈ c) :
    (rowKey ft r, groupRows ft c (rowKey ft r)) ∈ groupBy ft c := by
  rw [groupBy]
  apply List.mem_map_of_mem
  rw [groupKeys, (List.perm_insertionSort _ _).mem_iff, List.mem_dedup]
  exact List.mem_map_of_mem _ hr

theorem process_chunks_error_of_mem {ft : FileType} {chunks : List (List Row)}
    {c : List Row} {g : CastKey × List Row} (hc : c ∈ chunks)
    (hg : g ∈ groupBy ft c)
    (he : ∀ (dl : DataLists) (i : Nat),
      ∃ e, processGroup ft g.1 g.2 i dl = Except.error e) :
    ∃ e, process_chunks ft chunks = Except.error e := by
  rw [process_chunks_eq_runGroups]
  exact runGroups_error_of_mem
    (List.mem_flatMap.2 ⟨c, hc, hg⟩) he _

theorem get_date_error_of_nonNumeric {k : CastKey}
    (h : hasNonNumericDate k = true) :
    get_date k.year k.month k.day k.hour k.minute =
      Except.error PipelineError.dateParseError := by
  rw [hasNonNumericDate] at h
  simp only [Bool.or_eq_true, Option.isNone_iff_eq_none] at h
  rw [get_date]
  rcases h with ((((hy | hm) | hd) | hh) | hmi)
  · rw [show parseIntE k.year = Except.error PipelineError.dateParseError by
      rw [parseIntE, hy]]
  · cases hcy : parseIntE k.year with
    | error e => rw [parseIntE] at hcy; split at hcy <;> cases hcy; rfl
    | ok y =>
      rw [show parseIntE k.month = Except.error PipelineError.dateParseError by
        rw [parseIntE, hm]]
  · cases hcy : parseIntE k.year with
    | error e => rw [parseIntE] at hcy; split at hcy <;> cases hcy; rfl
    | ok y =>
      cases hcm : parseIntE k.month with
      | error e => rw [parseIntE] at hcm; split at hcm <;> cases hcm; rfl
      | ok m =>
        rw [show parseIntE k.day = Except.error PipelineError.dateParseError by
          rw [parseIntE, hd]]
  · cases hcy : parseIntE k.year with
    | error e => rw [parseIntE] at hcy; split at hcy <;> cases hcy; rfl
    | ok y =>
      cases hcm : parseIntE k.month with
      | error e => rw [parseIntE] at hcm; split at hcm <;> cases hcm; rfl
      | ok m =>
        cases hcd : parseIntE k.day with
        | error e => rw [parseIntE] at hcd; split at hcd <;> cases hcd; rfl
        | ok d =>
          rw [show parseIntE k.hour = Except.error PipelineError.dateParseError by
            rw [parseIntE, hh]]
  · cases hcy : parseIntE k.year with
    | error e => rw [parseIntE] at hcy; split at hcy <;> cases hcy; rfl
    | ok y =>
      cases hcm : parseIntE k.month with
      | error e => rw [parseIntE] at hcm; split at hcm <;> cases hcm; rfl
      | ok m =>
        cases hcd : parseIntE k.day with
        | error e => rw [parseIntE] at hcd; split at hcd <;> cases hcd; rfl
        | ok d =>
          cases hch : parseIntE k.hour with
          | error e => rw [parseIntE] at hch; split at hch <;> cases hch; rfl
          | ok hh2 =>
            rw [show parseIntE k.minute = Except.error PipelineError.dateParseError by
              rw [parseIntE, hmi]]


theorem groupOutcome_error_of_allZero {k : CastKey} {rows : List Row}
    (hlen : 1 < rows.length) (hz : ∀ r ∈ rows, r.depth = 0) :
    ∃ e, groupOutcome k rows = Except.error e := by
  have hfil : (rows.map Row.depth).filter (fun d => d ≠ 0) = [] := by
    rw [List.filter_eq_nil_iff]
    intro a ha
    rw [List.mem_map] at ha
    obtain ⟨r, hr, rfl⟩ := ha
    simp [hz r hr]
  have hlen2 : (rows.map Row.depth).length > 1 := by simpa using hlen
  unfold groupOutcome
  rw [hfil, if_pos hlen2]
  cases hd : get_date k.year k.month k.day k.hour k.minute with
  | error e => exact ⟨e, rfl⟩
  | ok dts =>
    obtain ⟨ds, ts⟩ := dts
    exact ⟨PipelineError.dataError, rfl⟩

theorem processGroup_error_of_allZero {ft : FileType} {k : CastKey}
    {rows : List Row} (hlen : 1 < rows.length) (hz : ∀ r ∈ rows, r.depth = 0)
    (i : Nat) (dl : DataLists) :
    ∃ e, processGroup ft k rows i dl = Except.error e := by
  obtain ⟨e, he⟩ := groupOutcome_error_of_allZero (k := k) hlen hz
  refine ⟨e, ?_⟩
  unfold processGroup
  rw [he]
  rfl

theorem processGroup_error_of_badDate {ft : FileType} {k : CastKey}
    (hbad : hasNonNumericDate k = true) (rows : List Row) (i : Nat)
    (dl : DataLists) :
    processGroup ft k rows i dl = Except.error PipelineError.dateParseError := by
  unfold processGroup groupOutcome
  rw [get_date_error_of_nonNumeric hbad]
  rfl

theorem runPipeline_error_of_chunks {build : FileType → DataLists → String →
      String → Except PipelineError Dataset}
    {dataPath : String} {fs : Reader} {ft : FileType} {now sep : String}
    {chunks : List (List Row)} {e : PipelineError}
    (hfs : fs sep = Except.ok chunks)
    (hpc : process_chunks ft chunks = Except.error e) :
    runPipeline build dataPath fs ft now sep = Except.error e := by
  unfold runPipeline
  rw [hfs]
  show aggStage build dataPath ft now chunks = Except.error e
  unfold aggStage
  rw [hpc]

/-- C10: for every input containing a cast group with more than one depth
reading all of which are zero, chunk processing fails with an error — the
shallowest-depth computation takes the minimum of the empty selection of
non-zero depths, so the failure branch of the minimum is reachable even
though the group's depth series is non-empty. -/
theorem allZero_multiReading_group_fails {ft : FileType}
    {chunks : List (List Row)}
    (h : ∃ c ∈ chunks, ∃ g ∈ groupBy ft c,
      1 < g.2.length ∧ ∀ r ∈ g.2, r.depth = 0) :
    ∃ e, process_chunks ft chunks = Except.error e := by
  obtain ⟨c, hc, g, hg, hlen, hz⟩ := h
  exact process_chunks_error_of_mem hc hg
    (fun dl i => processGroup_error_of_allZero hlen hz i dl)

/-- C10 witness: the two-row all-zero cast makes the run fail. -/
theorem allZero_multiReading_group_fails_witness :
    ∃ e, process_chunks FileType.xbt [[rowZeroA1, rowZeroA2]] =
      Except.error e :=
  allZero_multiReading_group_fails (by decide)

/-- C6 counterexample: an input that contains a cast with a non-numeric
`Year` and also an earlier-sorted cast with two all-zero depth readings
fails with `dataError`, not `dateParseError` — the claim's universally
promised `DateParseError` can be preempted by another failure. -/
theorem dateParse_preempted_counterexample :
    (∃ c ∈ [[rowZeroA1, rowZeroA2, rowBadYear]], ∃ r ∈ c,
        hasNonNumericDate (rowKey FileType.xbt r) = true) ∧
    read_ICES "/d/s/f.txt"
        (fun _ => Except.ok [[rowZeroA1, rowZeroA2, rowBadYear]])
        FileType.xbt "t" = Except.error PipelineError.dataError ∧
    PipelineError.dataError ≠ PipelineError.dateParseError :=
  ⟨by decide, by rfl, by decide⟩

/-- C6 (amended): for every `.txt` or `.csv` input whose rows contain a
cast with a non-numeric date field, the run aborts with an error — a
`DateParseError` or, when an earlier-processed cast already fails in its
shallowest-depth minimum, a `DataError` — and no output is written (the
write step never executes after an aggregation failure).  The reader is
consulted with the separator the dispatch selects for the path's suffix
(tab for `.txt`, comma for `.csv`). -/
theorem badDate_aborts_run {ft : FileType} {chunks : List (List Row)}
    {dataPath : String} {fs : Reader} {now : String}
    (hsuffix : endsWith dataPath ".txt" = true ∨
      endsWith dataPath ".csv" = true)
    (hfs : fs (if endsWith dataPath ".txt" = true then "\t" else ",") =
      Except.ok chunks)
    (hbad : ∃ c ∈ chunks, ∃ r ∈ c, hasNonNumericDate (rowKey ft r) = true) :
    ∃ e, (e = PipelineError.dateParseError ∨ e = PipelineError.dataError) ∧
      read_ICES dataPath fs ft now = Except.error e := by
  obtain ⟨c, hc, r, hr, hbadr⟩ := hbad
  obtain ⟨e, he⟩ := process_chunks_error_of_mem hc (key_mem_groupBy hr)
    (fun dl i => ⟨PipelineError.dateParseError,
      processGroup_error_of_badDate hbadr _ i dl⟩)
  refine ⟨e, process_chunks_error_cases he, ?_⟩
  by_cases htxt : endsWith dataPath ".txt" = true
  · rw [if_pos htxt] at hfs
    unfold read_ICES
    rw [if_pos htxt]
    exact runPipeline_error_of_chunks hfs he
  · rcases hsuffix with h1 | hcsv
    · exact absurd h1 htxt
    · rw [if_neg htxt] at hfs
      unfold read_ICES
      rw [if_neg htxt, if_pos hcsv]
      exact runPipeline_error_of_chunks hfs he

/-- C6 witness: a single bad-`Year` cast on a `.txt` path aborts the run. -/
theorem badDate_aborts_run_witness :
    ∃ e, (e = PipelineError.dateParseError ∨ e = PipelineError.dataError) ∧
      read_ICES "/d/s/f.txt" (fun _ => Except.ok [[rowBadYear]])
        FileType.xbt "t" = Except.error e :=
  badDate_aborts_run (Or.inl (by rfl)) (by rfl) (by decide)

/-- C9 counterexample: a source path ending in neither `.txt` nor `.csv`
whose file cannot be opened — the invocation completes silently, raising no
error and producing no output dataset. -/
theorem unreadable_path_silent_counterexample :
    read_ICES "/data/foo.dat" failingReader FileType.bot "t" =
      Except.ok none ∧
    failingReader "\t" = Except.error PipelineError.readError :=
  ⟨by rfl, rfl⟩

/-- C9 (amended): for every source path ending in `.txt` or `.csv` whose
reader fails (file unopenable or rows unparsable into the expected column
set), the pipeline fails with the ReadError; paths with any other suffix
are silently skipped by the dispatch, completing without error or output. -/
theorem reader_failure_propagates {dataPath : String} {fs : Reader}
    {ft : FileType} {now : String}
    (hsuffix : endsWith dataPath ".txt" = true ∨
      endsWith dataPath ".csv" = true)
    (hfail : ∀ sep, fs sep = Except.error PipelineError.readError) :
    read_ICES dataPath fs ft now = Except.error PipelineError.readError := by
  by_cases htxt : endsWith dataPath ".txt" = true
  · unfold read_ICES
    rw [if_pos htxt]
    unfold runPipeline
    rw [hfail]
  · rcases hsuffix with h1 | h2
    · exact absurd h1 htxt
    · unfold read_ICES
      rw [if_neg htxt, if_pos h2]
      unfold runPipeline
      rw [hfail]

/-- C9 witness: a failing reader on a `.txt` path yields the ReadError. -/
theorem reader_failure_propagates_witness :
    read_ICES "/data/foo.txt" failingReader FileType.bot "t" =
      Except.error PipelineError.readError :=
  reader_failure_propagates (Or.inl (by rfl)) (fun _ => rfl)


theorem create_dataset_variants (ft : FileType) (dl : DataLists)
    (dataPath now : String) :
    ICESReader_create_dataset ft dl dataPath now =
      (create_dataset ft dl dataPath now).map
        (fun ds => { ds with dataset_name := "ICES_2022" }) := by
  unfold ICESReader_create_dataset create_dataset buildDataset
  split
  · rfl
  · rfl

theorem writeStage_variants (dataPath : String) (ft : FileType)
    (now : String) (dl : DataLists) :
    writeStage ICESReader_create_dataset dataPath ft now dl =
      (writeStage create_dataset dataPath ft now dl).map
        (Option.map (fun ds => { ds with dataset_name := "ICES_2022" })) := by
  unfold writeStage
  rw [create_dataset_variants]
  cases create_dataset ft dl dataPath now with
  | error e => rfl
  | ok ds => rfl

theorem aggStage_variants (dataPath : String) (ft : FileType) (now : String)
    (chunks : List (List Row)) :
    aggStage ICESReader_create_dataset dataPath ft now chunks =
      (aggStage create_dataset dataPath ft now chunks).map
        (Option.map (fun ds => { ds with dataset_name := "ICES_2022" })) := by
  unfold aggStage
  cases process_chunks ft chunks with
  | error e => rfl
  | ok st =>
    obtain ⟨dl, m⟩ := st
    exact writeStage_variants dataPath ft now dl

theorem runPipeline_variants (dataPath : String) (fs : Reader)
    (ft : FileType) (now sep : String) :
    runPipeline ICESReader_create_dataset dataPath fs ft now sep =
      (runPipeline create_dataset dataPath fs ft now sep).map
        (Option.map (fun ds => { ds with dataset_name := "ICES_2022" })) := by
  unfold runPipeline
  cases fs sep with
  | error e => rfl
  | ok chunks => exact aggStage_variants dataPath ft now chunks

/-- C8 counterexample: on a concrete input whose path's grandparent
directory is not named `ICES_2022`, the functional pipeline and the class
pipeline both succeed but write datasets differing in the `dataset_name`
attribute — the outputs are not identical. -/
theorem pipeline_outputs_differ_counterexample :
    read_ICES "/mnt/data/origdir/sub/file.csv" oneRowReader FileType.bot "t" =
      Except.ok (some dsFunctional) ∧
    ICESReader_run "/mnt/data/origdir/sub/file.csv" oneRowReader FileType.bot "t" =
      Except.ok (some dsClass) ∧
    dsFunctional.dataset_name = "origdir" ∧
    dsClass.dataset_name = "ICES_2022" ∧
    dsFunctional ≠ dsClass :=
  ⟨by rfl, by rfl, rfl, rfl, by decide⟩

/-- C8 (amended): the two pipelines are equivalent up to the dataset-level
`dataset_name` attribute: for every input path, reader, file type and
build time, the class pipeline's result is the functional pipeline's result
with `dataset_name` replaced by the hardcoded `"ICES_2022"` (the functional
pipeline derives it from the input path); all coordinates, data variables,
dimensions, error behaviour and the `creation_date` attribute coincide. -/
theorem pipelines_agree_up_to_dataset_name (dataPath : String) (fs : Reader)
    (ft : FileType) (now : String) :
    ICESReader_run dataPath fs ft now =
      (read_ICES dataPath fs ft now).map
        (Option.map (fun ds => { ds with dataset_name := "ICES_2022" })) := by
  unfold ICESReader_run read_ICES
  by_cases h1 : endsWith dataPath ".txt" = true
  · rw [if_pos h1, if_pos h1]
    exact runPipeline_variants dataPath fs ft now "\t"
  · rw [if_neg h1, if_neg h1]
    by_cases h2 : endsWith dataPath ".csv" = true
    · rw [if_pos h2, if_pos h2]
      exact runPipeline_variants dataPath fs ft now ","
    · rw [if_neg h2, if_neg h2]
      rfl

end ICES